import Mathlib

/-!
Verification of `src/ai/create_domains.py` against its natural-language
specification.

The script has four stages:
  * `first_part`  — the Batch Builder: groups source files into token-bounded
    prompt chunks;
  * `second_part` — the Summarization Runner: sends each chunk to the model and
    appends the summaries to a transcript file;
  * `third_part`  — the Domain Synthesizer: sends the transcript to the model
    and persists the response;
  * `fourth_part` — the Classifier: classifies each (identifier, path) pair
    into a domain, with a retry wrapper and periodic checkpointing.

Each Python function is embedded as a pure Lean function.  File contents are
modelled by a function `String → Option String` (`none` = the read raises),
the tokenizer by a function `String → Nat`, and the chat-completion endpoint
by an oracle; exceptions are modelled with `Except`.  Ghost fields (`batches`,
`skipped`, `errors`, `checkpoints`, `sleeps`) record observable events without
changing the computation.
-/

namespace CreateDomains

/-! ## Batch Builder (`first_part`) -/

/-- Fixed instruction text placed before the accumulated code in every chunk
(the `prompt` triple-quoted literal in `first_part`). -/
def analyzeHead : String :=
  "Analyze the following code and list out every single possible business functionality or application flow in as much detail as possible.\n\nCODE TO ANALYZE:    \n"

/-- Fixed instruction text appended after the accumulated code in every chunk
(the `end_instructions` literal in `first_part`). -/
def analyzeTail : String :=
  "\n\nIMPORTANT INSTRUCTIONS:\nEnsure that the output is a bulleted list of the functionalities and flows described in extreme detail, and nothing else. No titles or additional text."

/-- Character ceiling applied to every assembled prompt (`1048570` in the
source). -/
def CHAR_LIMIT : Nat := 1048570

/-- The token budget used by `first_part` (`MAX_TOKENS = 180000`). -/
def MAX_TOKENS : Nat := 180000

/-- The separator written into the buffer before each file:
`f"\n\n--- {class_name} ({file_path}) ---\n\n"`. -/
def fileSep (class_name file_path : String) : String :=
  "\n\n--- " ++ class_name ++ " (" ++ file_path ++ ") ---\n\n"

/-- Assemble one chunk from the accumulated buffer: fixed head, buffer, fixed
tail, with the character-level truncation of the buffer when the result
exceeds `CHAR_LIMIT`. -/
def mkChunk (buffer : String) : String :=
  let full_content := analyzeHead ++ buffer ++ analyzeTail
  if full_content.length > CHAR_LIMIT then
    let keep_length := CHAR_LIMIT - analyzeHead.length - analyzeTail.length
    analyzeHead ++ buffer.take keep_length ++ analyzeTail
  else
    full_content

/-- State of the `first_part` loop.  `buffer`, `token_count` and `chunks` are
the Python locals; `batches` mirrors `chunks` with the (identifier, path)
entries that went into each sealed chunk, `cur` holds the entries currently in
`buffer`, and `skipped`/`errors` record the files dropped as oversized
resp. unreadable. -/
structure FPState where
  buffer : String
  token_count : Nat
  chunks : List String
  batches : List (List (String × String))
  cur : List (String × String)
  skipped : List (String × String)
  errors : List (String × String)
deriving DecidableEq

/-- Initial `first_part` state. -/
def fpInit : FPState := ⟨"", 0, [], [], [], [], []⟩

/-- One iteration of the `for class_name, file_path in class_mapping.items()`
loop of `first_part`. -/
def fpStep (tok : String → Nat) (fs : String → Option String) (B : Nat)
    (st : FPState) (item : String × String) : FPState :=
  match fs item.2 with
  | none => { st with errors := st.errors ++ [item] }
  | some file_content =>
    let file_tokens := tok file_content
    if file_tokens > B then
      { st with skipped := st.skipped ++ [item] }
    else
      let st1 :=
        if st.token_count + file_tokens > B ∧ st.token_count > 0 then
          { st with
              chunks := st.chunks ++ [mkChunk st.buffer],
              batches := st.batches ++ [st.cur],
              buffer := "",
              token_count := 0,
              cur := [] }
        else st
      { st1 with
          buffer := st1.buffer ++ fileSep item.1 item.2 ++ file_content,
          token_count := st1.token_count + file_tokens,
          cur := st1.cur ++ [item] }

/-- The whole accumulation loop of `first_part`. -/
def fpFold (tok : String → Nat) (fs : String → Option String) (B : Nat)
    (items : List (String × String)) : FPState :=
  items.foldl (fpStep tok fs B) fpInit

/-- The trailing `if token_count > 0:` flush of `first_part`, sealing the final
chunk. -/
def fpFlush (st : FPState) : FPState :=
  if st.token_count > 0 then
    { st with
        chunks := st.chunks ++ [mkChunk st.buffer],
        batches := st.batches ++ [st.cur],
        buffer := "",
        token_count := 0,
        cur := [] }
  else st

/-- `first_part`: accumulate all files, then flush the final chunk.  The
tokenizer `tok`, the file system `fs` and the budget `B` are parameters; the
source fixes `tok` to tiktoken, and `B` to `MAX_TOKENS`. -/
def first_part (tok : String → Nat) (fs : String → Option String) (B : Nat)
    (items : List (String × String)) : FPState :=
  fpFlush (fpFold tok fs B items)

/-- An item is kept by the Batch Builder iff its file reads successfully and
its own token count does not exceed the budget. -/
def kept (tok : String → Nat) (fs : String → Option String) (B : Nat)
    (item : String × String) : Bool :=
  match fs item.2 with
  | none => false
  | some file_content => !(tok file_content > B)

/-- The input entries that are neither skipped as oversized nor dropped by a
read error, in input order. -/
def includedEntries (tok : String → Nat) (fs : String → Option String) (B : Nat)
    (items : List (String × String)) : List (String × String) :=
  items.filter (kept tok fs B)

/-- Token count of one entry's file content (0 when the read fails; such
entries never enter a batch). -/
def entryTokens (tok : String → Nat) (fs : String → Option String)
    (item : String × String) : Nat :=
  match fs item.2 with
  | none => 0
  | some file_content => tok file_content

/-- Total raw file-content token count of a list of entries. -/
def sumTokens (tok : String → Nat) (fs : String → Option String)
    (l : List (String × String)) : Nat :=
  (l.map (entryTokens tok fs)).sum

/-- A token-counting function is monotone when concatenation never decreases
the count of either part (the spec's "monotonic token-counting function"). -/
def MonotoneTok (tok : String → Nat) : Prop :=
  ∀ s t : String, tok s ≤ tok (s ++ t) ∧ tok t ≤ tok (s ++ t)

/-! ## Python string primitives

`str.lower` and `str.strip` are embedded structurally over the character
sequence so that they compute by kernel reduction. -/

/-- Python `str.lower()`. -/
def pyLower (s : String) : String := ⟨s.data.map Char.toLower⟩

/-- Characters removed by Python `str.strip()` with no argument. -/
def isPySpace (c : Char) : Bool := c = ' ' ∨ c = '\t' ∨ c = '\n' ∨ c = '\r'

/-- Python `str.strip()`. -/
def pyStrip (s : String) : String :=
  ⟨((s.data.dropWhile isPySpace).reverse.dropWhile isPySpace).reverse⟩

/-! ## Classifier (`fourth_part`) -/

/-- Outcome of one chat-completion request: a returned message, an exception
whose text contains `"rate_limit_exceeded"`, or any other exception. -/
inductive ApiResult where
  | ok (content : String)
  | rateLimit
  | otherError

/-- Exceptions that the classifier code can observe.  All three are Python
`Exception` subclasses, so every `except Exception` clause catches each of
them. -/
inductive PyExn where
  | ioError
  | rateLimitError
  | otherError
deriving DecidableEq

/-- The environment of one classifier run: the file system (`none` = the read
raises an `IOError`) and the chat endpoint, addressed by prompt and by the
attempt index for that item (so an item may fail once and succeed later). -/
structure World where
  readFile : String → Option String
  api : String → Nat → ApiResult

/-- Mutable state shared by the classifier workers: the assignment map
(`class_domain_mapping`), the progress counter, plus ghost fields recording
every checkpoint snapshot written and every backoff sleep performed. -/
structure CState where
  class_domain_mapping : List (String × String)
  processed : Nat
  checkpoints : List (List (String × String))
  sleeps : Nat
deriving DecidableEq

/-- Initial classifier state. -/
def cInit : CState := ⟨[], 0, [], 0⟩

/-- Python dict assignment `m[k] = v`: update the value in place when the key
is present, append the pair otherwise. -/
def dinsert (m : List (String × String)) (k v : String) : List (String × String) :=
  match m with
  | [] => [(k, v)]
  | (k', v') :: rest => if k' = k then (k', v) :: rest else (k', v') :: dinsert rest k v

/-- The catalog's name list (`domain_names = [domain["name"] for domain in domains]`).
A catalog is the list of `(name, description)` records of `business_domains.json`. -/
def domainNames (cat : List (String × String)) : List String := cat.map Prod.fst

/-- The `domains_text` block of the classification prompt:
`f"- {name}: {description}\n"` for every catalog record. -/
def domainsText (cat : List (String × String)) : String :=
  cat.foldl (fun acc d => acc ++ "- " ++ d.1 ++ ": " ++ d.2 ++ "\n") ""

/-- The content truncation of `process_class`: cap at 900000 characters and
append the truncation notice. -/
def truncContent (s : String) : String :=
  if s.length > 900000 then s.take 900000 ++ "\n[Content truncated due to length]"
  else s

/-- The classification prompt of `process_class`, with the slots of the
f-string filled in. -/
def classifyPrompt (domains_text class_name file_path file_content : String) : String :=
  "Analyze the following class code and classify it into exactly ONE of the business domains defined below.\n\nBUSINESS DOMAINS:\n"
    ++ domains_text
    ++ "\n\nCLASS CODE (" ++ class_name ++ " at " ++ file_path ++ "):\n"
    ++ file_content
    ++ "\n\nINSTRUCTIONS:\n1. Focus ONLY on the class named '" ++ class_name
    ++ "' even if the file contains multiple classes\n2. Deeply analyze what this specific class does, its responsibilities, and its business purpose\n3. Determine which single domain it belongs to (only one domain allowed)\n4. Respond with ONLY the domain name (lowercase, exactly as listed above) and nothing else\n5. Assign to common ONLY when it is clear that it is a shared class that does not fit into any other specific domain\n"

/-- The `try:` block of `process_class`: read the file, call the model,
normalize and validate the response, record the assignment, bump the counter
and checkpoint every 10th processed item.  A raised exception is returned as
`Except.error`; every raise point precedes the state mutations. -/
def process_class_try (cat : List (String × String)) (w : World) (attempt : Nat)
    (st : CState) (item : String × String) : Except PyExn (String × CState) :=
  match w.readFile item.2 with
  | none => .error .ioError
  | some raw_content =>
    let file_content := truncContent raw_content
    let prompt := classifyPrompt (domainsText cat) item.1 item.2 file_content
    match w.api prompt attempt with
    | .rateLimit => .error .rateLimitError
    | .otherError => .error .otherError
    | .ok content =>
      let domain := pyLower (pyStrip content)
      let domain := if domain ∈ domainNames cat then domain else "common"
      let m := dinsert st.class_domain_mapping item.1 domain
      let processed := st.processed + 1
      let cks :=
        if processed % 10 == 0 then st.checkpoints ++ [m] else st.checkpoints
      .ok ("Classified " ++ item.1 ++ " as '" ++ domain ++ "'",
        ⟨m, processed, cks, st.sleeps⟩)

/-- The `except Exception` handler of `process_class`: record the identifier
under the failure marker `"error"`, bump the counter (without checkpointing)
and return the error message normally. -/
def process_class_handler (st : CState) (item : String × String) : String × CState :=
  ("Error processing " ++ item.2,
    ⟨dinsert st.class_domain_mapping item.1 "error", st.processed + 1,
      st.checkpoints, st.sleeps⟩)

/-- `process_class`: the `try:` block guarded by the catch-all handler.  Its
semantic domain is `Except` because a Python call may in general raise, but
both branches of this definition return normally. -/
def process_class (cat : List (String × String)) (w : World) (attempt : Nat)
    (st : CState) (item : String × String) : Except PyExn (String × CState) :=
  match process_class_try cat w attempt st item with
  | .ok r => .ok r
  | .error _ => .ok (process_class_handler st item)

/-- `max_retries=5` of `process_class_with_retry`. -/
def max_retries : Nat := 5

/-- The `while retry_count <= max_retries:` loop of `process_class_with_retry`.
`fuel` is `max_retries + 1 - retry_count`, the number of remaining loop
entries; the `fuel = 0` case is the code after the loop, which records the
identifier under `"error_rate_limit"`.  A backoff sleep is recorded in the
ghost `sleeps` counter; the jitter and the suggested-wait parsing only affect
the slept duration, not the control flow, and are not modelled. -/
def retryLoop (cat : List (String × String)) (w : World) (item : String × String) :
    Nat → Nat → Nat → CState → Except PyExn (String × CState)
  | 0, _, _, st =>
    .ok ("Error processing " ++ item.2 ++ " after 5 retries: Rate limit exceeded",
      ⟨dinsert st.class_domain_mapping item.1 "error_rate_limit", st.processed + 1,
        st.checkpoints, st.sleeps⟩)
  | fuel + 1, retry_count, backoff_time, st =>
    match process_class cat w retry_count st item with
    | .ok r => .ok r
    | .error e =>
      if e = .rateLimitError ∧ retry_count < max_retries then
        retryLoop cat w item fuel (retry_count + 1) (min (backoff_time * 2) 60)
          { st with sleeps := st.sleeps + 1 }
      else .error e

/-- `process_class_with_retry`: run the retry loop from `retry_count = 0`,
`backoff_time = 1`. -/
def process_class_with_retry (cat : List (String × String)) (w : World)
    (st : CState) (item : String × String) : Except PyExn (String × CState) :=
  retryLoop cat w item (max_retries + 1) 0 1 st

/-- The per-future code of the `as_completed` loop of `fourth_part`: take the
worker's result, swallowing (printing) any exception it propagated. -/
def runItem (cat : List (String × String)) (w : World) (st : CState)
    (item : String × String) : CState :=
  match process_class_with_retry cat w st item with
  | .ok (_, st') => st'
  | .error _ => st

/-- `fourth_part`, serialised: process every item of the class mapping and
return the final shared state.  (The thread pool's interleavings only permute
which item is processed when; the claims quantify over the item list, which
covers every completion order.) -/
def fourth_part (cat : List (String × String)) (w : World)
    (items : List (String × String)) : CState :=
  items.foldl (runItem cat w) cInit

/-- Every full-map persist performed by `fourth_part`: the periodic
checkpoints followed by the unconditional final save. -/
def fourth_part_persists (cat : List (String × String)) (w : World)
    (items : List (String × String)) : List (List (String × String)) :=
  (fourth_part cat w items).checkpoints ++ [(fourth_part cat w items).class_domain_mapping]

/-- The value that one classifier step records for `item`: the normalized,
validated response on success, the marker `"error"` when the read or the
request raises. -/
def recordedValue (cat : List (String × String)) (w : World)
    (item : String × String) : String :=
  match w.readFile item.2 with
  | none => "error"
  | some raw_content =>
    let file_content := truncContent raw_content
    let prompt := classifyPrompt (domainsText cat) item.1 item.2 file_content
    match w.api prompt 0 with
    | .ok content =>
      let domain := pyLower (pyStrip content)
      if domain ∈ domainNames cat then domain else "common"
    | _ => "error"

/-- Whether one classifier step succeeds (file readable and first request
answered). -/
def stepSuccess (cat : List (String × String)) (w : World)
    (item : String × String) : Bool :=
  match w.readFile item.2 with
  | none => false
  | some raw_content =>
    let file_content := truncContent raw_content
    let prompt := classifyPrompt (domainsText cat) item.1 item.2 file_content
    match w.api prompt 0 with
    | .ok _ => true
    | _ => false

/-! ## Summarization Runner (`second_part`) -/

/-- The chunk-processing loop of `second_part`: call the model on each chunk in
order and append `summary + "\n"` to the transcript.  A raised request error
aborts the run with the transcript as written so far (`false` flag). -/
def secondPartGo (api : String → Except Unit String) :
    List String → String → String × Bool
  | [], transcript => (transcript, true)
  | chunk :: rest, transcript =>
    match api chunk with
    | .ok summary => secondPartGo api rest (transcript ++ summary ++ "\n")
    | .error _ => (transcript, false)

/-- `second_part`: `open("all_summaries.txt", "w")` truncates the transcript
file, discarding `prior` (its pre-run content), then every chunk is processed
in order.  Returns the final transcript content and whether the run completed. -/
def second_part (prior : String) (api : String → Except Unit String)
    (chunks : List String) : String × Bool :=
  secondPartGo api chunks ""

/-! ## Domain Synthesizer (`third_part` / `generate_business_domains`) -/

/-- The head of the `generate_business_domains` prompt. -/
def gbdHead : String :=
  "Identify business domains from these code summaries. Format as JSON:\n\nCODE SUMMARIES:\n"

/-- The rules block appended to the `generate_business_domains` prompt. -/
def gbdRules : String :=
  "\nRULES:\n1. Domains MUST:\n   - Represent distinct business capabilities (e.g. \"order_management\", \"payment_processing\")\n   - Use only business terminology from the summaries\n   - Be independently meaningful to business stakeholders\n\n2. Create ONE \"common\" domain ONLY for:\n   - Shared technical utilities (logging, data connectors)\n   - Non-business scaffolding reused across domains\n\n3. FORBIDDEN:\n   - Technical terms (e.g. \"api\", \"database\")\n   - Generic groupings (e.g. \"utils\", \"helpers\")\n   - Functional layers (e.g. \"controllers\", \"services\")\n\n4. Output JSON structure:\n\x7b\n  \"domains\": [\n    \x7b\n      \"name\": \"lowercase_business_concept\", \n      \"description\": \"Specific business capability in 8-12 words\"\n    \x7d\n  ]\n\x7d"

/-- The prompt assembled by `generate_business_domains`: head, each summary
wrapped in newlines, rules, truncated at `CHAR_LIMIT` characters. -/
def gbdPrompt (summaries : List String) : String :=
  let prompt :=
    gbdHead ++ summaries.foldl (fun acc s => acc ++ "\n" ++ s ++ "\n") "" ++ gbdRules
  if prompt.length > CHAR_LIMIT then prompt.take CHAR_LIMIT else prompt

/-- `generate_business_domains`: build the prompt and return the model's raw
response. -/
def generate_business_domains (api : String → String) (summaries : List String) :
    String :=
  api (gbdPrompt summaries)

/-- The summaries `third_part` extracts from the transcript: split on blank
lines, keep the ones with non-whitespace content. -/
def transcriptSummaries (transcript : String) : List String :=
  (transcript.splitOn "\n\n").filter (fun s => !(pyStrip s == ""))

/-- `third_part`: read the transcript, extract the summaries, call
`generate_business_domains` and persist its return value to
`business_domains.json`.  The returned string is the persisted file content. -/
def third_part (api : String → String) (transcript : String) : String :=
  generate_business_domains api (transcriptSummaries transcript)

/-- Written from the spec's words, for comparison with the code: normalize a
domain name by lowercasing it and folding spaces and underscores to hyphens. -/
def specNormalizeDomainName (s : String) : String :=
  ⟨(pyLower s).data.map (fun c => if c = ' ' ∨ c = '_' then '-' else c)⟩

/-- The expected structured shape of a Domain Synthesizer response (the JSON
object the `generate_business_domains` prompt mandates), printed canonically
from a list of `(name, description)` records.  A string in the image of this
printer is parseable as the expected structure. -/
def mkDomainsJson (domains : List (String × String)) : String :=
  "\x7b\"domains\": ["
    ++ String.intercalate ", "
      (domains.map (fun d =>
        "\x7b\"name\": \"" ++ d.1 ++ "\", \"description\": \"" ++ d.2 ++ "\"\x7d"))
    ++ "]\x7d"

/-! ## Derived definitions used by the proofs -/

/-- The total function computed by `process_class` (the payload of the `.ok`
it always returns). -/
def process_class_run (cat : List (String × String)) (w : World) (attempt : Nat)
    (st : CState) (item : String × String) : String × CState :=
  match process_class_try cat w attempt st item with
  | .ok r => r
  | .error _ => process_class_handler st item

/-- The classifier loop started from an arbitrary state. -/
def cFold (cat : List (String × String)) (w : World) (st : CState)
    (items : List (String × String)) : CState :=
  items.foldl (runItem cat w) st

/-- Lookup in the assignment map (Python `m[k]` for present keys). -/
def lookupA : List (String × String) → String → Option String
  | [], _ => none
  | p :: rest, k => if p.1 = k then some p.2 else lookupA rest k

/-- Loop invariant of the Batch Builder: the running `token_count` is the token
total of the entries in the buffer, it never exceeds the budget, and every
sealed batch's token total is within the budget. -/
def FPInv (tok : String → Nat) (fs : String → Option String) (B : Nat)
    (st : FPState) : Prop :=
  st.token_count = sumTokens tok fs st.cur ∧
  st.token_count ≤ B ∧
  ∀ b ∈ st.batches, sumTokens tok fs b ≤ B

/-! ## Concrete environments used by counterexamples and witnesses -/

/-- A two-domain catalog. -/
def catBC : List (String × String) := [("billing", "b"), ("common", "c")]

/-- World for the rate-limit scenario: `Foo.txt` is readable, the first request
raises a rate-limit error, every later attempt would answer `"billing"`. -/
def wRate : World :=
  ⟨fun p => if p == "Foo.txt" then some "class Foo" else none,
   fun _ n => if n == 0 then ApiResult.rateLimit else ApiResult.ok "billing"⟩

/-- World where every file is missing. -/
def wMissing : World := ⟨fun _ => none, fun _ _ => ApiResult.ok "billing"⟩

/-- World where `f1` is missing and every other file is readable, with the
model always answering `"billing"`. -/
def wTen : World :=
  ⟨fun p => if p == "f1" then none else some "x", fun _ _ => ApiResult.ok "billing"⟩

/-- Eleven identifiers; the first one's file is missing in `wTen`, the other
ten classify successfully. -/
def itemsTen : List (String × String) :=
  [("C01", "f1"), ("C02", "f2"), ("C03", "f3"), ("C04", "f4"), ("C05", "f5"),
   ("C06", "f6"), ("C07", "f7"), ("C08", "f8"), ("C09", "f9"), ("C10", "f10"),
   ("C11", "f11")]

/-- World where every file is readable and the model always answers
`"billing"`. -/
def wOk : World := ⟨fun _ => some "class X", fun _ _ => ApiResult.ok "billing"⟩

/-- A five-character file behind path `a.txt`. -/
def fsSmall : String → Option String := fun p => if p == "a.txt" then some "aaaaa" else none

/-- A file system with one empty file behind path `e.txt`. -/
def fsEmpty : String → Option String := fun p => if p == "e.txt" then some "" else none

/-- A parseable Domain Synthesizer response whose domain name needs
normalization. -/
def rawResponse : String := mkDomainsJson [("Order_Management", "Handles orders")]

end CreateDomains

namespace CreateDomains

lemma dinsert_keys_new (m : List (String × String)) (k v : String)
    (h : k ∉ m.map Prod.fst) :
    (dinsert m k v).map Prod.fst = m.map Prod.fst ++ [k] := by
  induction m with
  | nil => rfl
  | cons p rest ih =>
    simp only [List.map_cons, List.mem_cons] at h
    push_neg at h
    simp [dinsert, Ne.symm h.1, ih h.2]

lemma dinsert_values (m : List (String × String)) (k v : String) :
    ∀ x ∈ (dinsert m k v).map Prod.snd, x = v ∨ x ∈ m.map Prod.snd := by
  induction m with
  | nil => simp [dinsert]
  | cons p rest ih =>
    intro x hx
    by_cases hk : p.1 = k
    · simp [dinsert, hk] at hx
      rcases hx with h | h
      · exact Or.inl h
      · exact Or.inr (by simp [h])
    · simp [dinsert, hk] at hx
      rcases hx with h | h
      · exact Or.inr (by simp [h])
      · rcases ih x (by simpa using h) with h' | h'
        · exact Or.inl h'
        · exact Or.inr (by simp [h'])

lemma lookupA_dinsert_self (m : List (String × String)) (k v : String) :
    lookupA (dinsert m k v) k = some v := by
  induction m with
  | nil => simp [dinsert, lookupA]
  | cons p rest ih =>
    by_cases hk : p.1 = k
    · simp [dinsert, hk, lookupA]
    · simp [dinsert, hk, lookupA, ih]

lemma lookupA_dinsert_ne (m : List (String × String)) (k k' v : String)
    (h : k' ≠ k) :
    lookupA (dinsert m k' v) k = lookupA m k := by
  induction m with
  | nil => simp [dinsert, lookupA, h]
  | cons p rest ih =>
    obtain ⟨a, b⟩ := p
    by_cases hk : a = k'
    · simp [dinsert, hk, lookupA, h]
    · by_cases hpk : a = k
      · simp [dinsert, lookupA, hpk, Ne.symm h]
      · simp [dinsert, hk, lookupA, hpk, ih]


lemma process_class_eq_run (cat : List (String × String)) (w : World) (attempt : Nat)
    (st : CState) (item : String × String) :
    process_class cat w attempt st item = .ok (process_class_run cat w attempt st item) := by
  unfold process_class process_class_run
  cases process_class_try cat w attempt st item <;> rfl

lemma pcwr_eq (cat : List (String × String)) (w : World) (st : CState)
    (item : String × String) :
    process_class_with_retry cat w st item = process_class cat w 0 st item := by
  rw [process_class_with_retry]
  show retryLoop cat w item (5 + 1) 0 1 st = _
  rw [retryLoop, process_class_eq_run]

lemma runItem_char (cat : List (String × String)) (w : World) (st : CState)
    (item : String × String) :
    runItem cat w st item =
      ⟨dinsert st.class_domain_mapping item.1 (recordedValue cat w item),
       st.processed + 1,
       if stepSuccess cat w item = true ∧ (st.processed + 1) % 10 = 0 then
         st.checkpoints ++ [dinsert st.class_domain_mapping item.1 (recordedValue cat w item)]
       else st.checkpoints,
       st.sleeps⟩ := by
  rw [runItem, pcwr_eq, process_class_eq_run]
  unfold process_class_run process_class_try process_class_handler recordedValue stepSuccess
  cases hr : w.readFile item.2 with
  | none => simp
  | some raw =>
    simp only
    cases ha : w.api (classifyPrompt (domainsText cat) item.1 item.2 (truncContent raw)) 0 with
    | ok content =>
      simp only
      by_cases hmod : (st.processed + 1) % 10 = 0
      · simp [hmod, Nat.beq_eq_true_eq]
      · simp [hmod, Nat.beq_eq_true_eq]
    | rateLimit => simp
    | otherError => simp

lemma recordedValue_cases (cat : List (String × String)) (w : World)
    (item : String × String) :
    recordedValue cat w item ∈ domainNames cat ∨ recordedValue cat w item = "common" ∨
      recordedValue cat w item = "error" := by
  unfold recordedValue
  cases w.readFile item.2 with
  | none => simp
  | some raw =>
    simp only
    cases w.api (classifyPrompt (domainsText cat) item.1 item.2 (truncContent raw)) 0 with
    | ok content =>
      simp only
      by_cases hc : pyLower (pyStrip content) ∈ domainNames cat
      · exact Or.inl (by simp [hc])
      · simp [hc]
    | rateLimit => simp
    | otherError => simp


lemma cFold_cons (cat : List (String × String)) (w : World) (st : CState)
    (item : String × String) (items : List (String × String)) :
    cFold cat w st (item :: items) = cFold cat w (runItem cat w st item) items := rfl

lemma cFold_keys (cat : List (String × String)) (w : World) :
    ∀ (items : List (String × String)) (st : CState),
      (st.class_domain_mapping.map Prod.fst ++ items.map Prod.fst).Nodup →
      (cFold cat w st items).class_domain_mapping.map Prod.fst
        = st.class_domain_mapping.map Prod.fst ++ items.map Prod.fst := by
  intro items
  induction items with
  | nil => intro st _; simp [cFold]
  | cons item rest ih =>
    intro st h
    rw [cFold_cons]
    have hnotin : item.1 ∉ st.class_domain_mapping.map Prod.fst := by
      rw [List.nodup_append] at h
      exact fun hmem => h.2.2 hmem (by simp)
    have hkeys : (runItem cat w st item).class_domain_mapping.map Prod.fst
        = st.class_domain_mapping.map Prod.fst ++ [item.1] := by
      rw [runItem_char]
      exact dinsert_keys_new _ _ _ hnotin
    have hre : (st.class_domain_mapping.map Prod.fst ++ [item.1]) ++ rest.map Prod.fst
        = st.class_domain_mapping.map Prod.fst ++ (item :: rest).map Prod.fst := by
      simp
    rw [ih (runItem cat w st item) (by rw [hkeys, hre]; exact h), hkeys, hre]

lemma cFold_values (cat : List (String × String)) (w : World) :
    ∀ (items : List (String × String)) (st : CState),
      ∀ x ∈ (cFold cat w st items).class_domain_mapping.map Prod.snd,
        x ∈ st.class_domain_mapping.map Prod.snd ∨ x ∈ domainNames cat ∨
          x = "common" ∨ x = "error" := by
  intro items
  induction items with
  | nil => intro st x hx; exact Or.inl hx
  | cons item rest ih =>
    intro st x hx
    rw [cFold_cons] at hx
    rcases ih (runItem cat w st item) x hx with h | h
    · rw [runItem_char] at h
      rcases dinsert_values _ _ _ x h with h' | h'
      · rcases recordedValue_cases cat w item with hc | hc | hc
        · exact Or.inr (Or.inl (h' ▸ hc))
        · exact Or.inr (Or.inr (Or.inl (h' ▸ hc)))
        · exact Or.inr (Or.inr (Or.inr (h' ▸ hc)))
      · exact Or.inl h'
    · exact Or.inr h

lemma cFold_lookup_of_not_mem (cat : List (String × String)) (w : World) :
    ∀ (items : List (String × String)) (st : CState) (k : String),
      k ∉ items.map Prod.fst →
      lookupA (cFold cat w st items).class_domain_mapping k
        = lookupA st.class_domain_mapping k := by
  intro items
  induction items with
  | nil => intro st k _; rfl
  | cons item rest ih =>
    intro st k hk
    simp only [List.map_cons, List.mem_cons] at hk
    push_neg at hk
    rw [cFold_cons, ih _ k hk.2, runItem_char]
    exact lookupA_dinsert_ne _ _ _ _ (Ne.symm hk.1)


lemma fpStep_part (tok : String → Nat) (fs : String → Option String) (B : Nat)
    (st : FPState) (item : String × String) :
    (fpStep tok fs B st item).batches.flatten ++ (fpStep tok fs B st item).cur
      = st.batches.flatten ++ st.cur ++ (if kept tok fs B item then [item] else []) := by
  unfold fpStep kept
  cases hr : fs item.2 with
  | none => simp
  | some file_content =>
    simp only
    by_cases hbig : tok file_content > B
    · simp [hbig]
    · by_cases hseal : st.token_count + tok file_content > B ∧ st.token_count > 0
      · simp [hbig, hseal, List.flatten_append]
      · simp [hbig, hseal, List.append_assoc]

lemma fpStep_inv (tok : String → Nat) (fs : String → Option String) (B : Nat)
    (st : FPState) (item : String × String) (h : FPInv tok fs B st) :
    FPInv tok fs B (fpStep tok fs B st item) := by
  obtain ⟨h1, h2, h3⟩ := h
  unfold fpStep
  cases hr : fs item.2 with
  | none => exact ⟨h1, h2, h3⟩
  | some file_content =>
    simp only
    by_cases hbig : tok file_content > B
    · simp only [if_pos hbig]
      exact ⟨h1, h2, h3⟩
    · simp only [if_neg hbig]
      push_neg at hbig
      by_cases hseal : st.token_count + tok file_content > B ∧ st.token_count > 0
      · simp only [if_pos hseal]
        refine ⟨?_, ?_, ?_⟩
        · simp [sumTokens, entryTokens, hr]
        · simpa using hbig
        · intro b hb
          simp only [List.mem_append, List.mem_singleton] at hb
          rcases hb with hb | hb
          · exact h3 b hb
          · rw [hb, ← h1]; exact h2
      · simp only [if_neg hseal]
        push_neg at hseal
        refine ⟨?_, ?_, ?_⟩
        · rw [h1]
          simp [sumTokens, entryTokens, hr, List.sum_append]
        · dsimp only
          by_cases hgt : st.token_count + tok file_content > B
          · have := hseal hgt
            omega
          · omega
        · exact h3

lemma fpFold_from_part (tok : String → Nat) (fs : String → Option String) (B : Nat) :
    ∀ (items : List (String × String)) (st : FPState),
      (items.foldl (fpStep tok fs B) st).batches.flatten
          ++ (items.foldl (fpStep tok fs B) st).cur
        = st.batches.flatten ++ st.cur ++ includedEntries tok fs B items := by
  intro items
  induction items with
  | nil => intro st; simp [includedEntries]
  | cons item rest ih =>
    intro st
    rw [List.foldl_cons, ih]
    rw [fpStep_part]
    have : includedEntries tok fs B (item :: rest)
        = (if kept tok fs B item then [item] else []) ++ includedEntries tok fs B rest := by
      unfold includedEntries
      by_cases hk : kept tok fs B item <;> simp [List.filter_cons, hk]
    rw [this]
    simp [List.append_assoc]

lemma fpFold_from_inv (tok : String → Nat) (fs : String → Option String) (B : Nat) :
    ∀ (items : List (String × String)) (st : FPState),
      FPInv tok fs B st → FPInv tok fs B (items.foldl (fpStep tok fs B) st) := by
  intro items
  induction items with
  | nil => intro st h; exact h
  | cons item rest ih =>
    intro st h
    exact ih _ (fpStep_inv tok fs B st item h)

lemma fpInit_inv (tok : String → Nat) (fs : String → Option String) (B : Nat) :
    FPInv tok fs B fpInit := by
  refine ⟨rfl, Nat.zero_le B, ?_⟩
  intro b hb
  simp [fpInit] at hb

lemma first_part_batches_le (tok : String → Nat) (fs : String → Option String) (B : Nat)
    (items : List (String × String)) :
    ∀ b ∈ (first_part tok fs B items).batches, sumTokens tok fs b ≤ B := by
  have hinv : FPInv tok fs B (fpFold tok fs B items) :=
    fpFold_from_inv tok fs B items fpInit (fpInit_inv tok fs B)
  obtain ⟨h1, h2, h3⟩ := hinv
  intro b hb
  unfold first_part fpFlush at hb
  by_cases hpos : (fpFold tok fs B items).token_count > 0
  · simp only [if_pos hpos] at hb
    simp only [List.mem_append, List.mem_singleton] at hb
    rcases hb with hb | hb
    · exact h3 b hb
    · rw [hb, ← h1]; exact h2
  · simp only [if_neg hpos] at hb
    exact h3 b hb


lemma join_cons (s : String) (l : List String) :
    String.join (s :: l) = s ++ String.join l := by
  apply String.ext
  simp [String.join_eq, String.data_append]

lemma secondPartGo_ok (model : String → String) :
    ∀ (chunks : List String) (acc : String),
      secondPartGo (fun c => Except.ok (model c)) chunks acc
        = (acc ++ String.join (chunks.map (fun c => model c ++ "\n")), true) := by
  intro chunks
  induction chunks with
  | nil =>
    intro acc
    simp [secondPartGo, String.join]
  | cons c rest ih =>
    intro acc
    rw [List.map_cons, join_cons]
    simp [secondPartGo, ih, String.append_assoc]

lemma first_part_partition (tok : String → Nat) (fs : String → Option String) (B : Nat)
    (items : List (String × String)) :
    (first_part tok fs B items).batches.flatten
        ++ (if (fpFold tok fs B items).token_count = 0 then (fpFold tok fs B items).cur else [])
      = includedEntries tok fs B items := by
  have hpart : (fpFold tok fs B items).batches.flatten ++ (fpFold tok fs B items).cur
      = includedEntries tok fs B items := by
    have := fpFold_from_part tok fs B items fpInit
    simpa [fpInit, fpFold] using this
  unfold first_part fpFlush
  by_cases hpos : (fpFold tok fs B items).token_count > 0
  · have hz : ¬(fpFold tok fs B items).token_count = 0 := by omega
    simp only [if_pos hpos, if_neg hz]
    simpa [List.flatten_append] using hpart
  · have hz : (fpFold tok fs B items).token_count = 0 := by omega
    simp only [if_neg hpos, if_pos hz]
    exact hpart


lemma fourth_part_eq_cFold (cat : List (String × String)) (w : World)
    (items : List (String × String)) :
    fourth_part cat w items = cFold cat w cInit items := rfl

/-- Claim C9: `process_class` catches every exception its body can raise and
returns normally, so the retry wrapper's `except` branch (and with it the
exhausted-retries recording of `error_rate_limit`) is unreachable:
`process_class_with_retry` is exactly one plain `process_class` call. -/
theorem c9_no_exception_escape (cat : List (String × String)) (w : World)
    (st : CState) (item : String × String) :
    process_class_with_retry cat w st item = process_class cat w 0 st item ∧
    process_class cat w 0 st item = Except.ok (process_class_run cat w 0 st item) :=
  ⟨pcwr_eq cat w st item, process_class_eq_run cat w 0 st item⟩

/-- Claim C1 (code bug evaluation): at the failing input — `Foo.txt` readable,
the first request raising a rate-limit error, every later attempt answering
`"billing"` — the classifier records `Foo ↦ "error"` immediately, performs no
backoff sleep and never reaches the would-succeed second attempt, because
`process_class`'s catch-all handler swallows the rate-limit error before
`process_class_with_retry` can see it. -/
theorem c1_rate_limit_swallowed :
    (fourth_part catBC wRate [("Foo", "Foo.txt")]).class_domain_mapping = [("Foo", "error")] ∧
    (fourth_part catBC wRate [("Foo", "Foo.txt")]).sleeps = 0 ∧
    wRate.api "" 1 = ApiResult.ok "billing" := by
  refine ⟨by decide, by decide, rfl⟩

/-- Claim C2, counterexample: when a file read fails the recorded value is the
failure marker `"error"`, which is not in the catalog's name set. -/
theorem c2_counterexample :
    (fourth_part catBC wMissing [("Foo", "Foo.txt")]).class_domain_mapping
      = [("Foo", "error")] ∧
    "error" ∉ domainNames catBC := by decide

/-- Claim C2 as amended: every value in the final assignment map is a member
of the catalog's name set (given that `common` belongs to the catalog) or the
failure marker `"error"`. -/
theorem c2_amended_values (cat : List (String × String)) (w : World)
    (items : List (String × String)) (h : "common" ∈ domainNames cat) :
    ∀ v ∈ (fourth_part cat w items).class_domain_mapping.map Prod.snd,
      v ∈ domainNames cat ∨ v = "error" := by
  intro v hv
  rw [fourth_part_eq_cFold] at hv
  rcases cFold_values cat w items cInit v hv with h0 | h0 | h0 | h0
  · simp [cInit] at h0
  · exact Or.inl h0
  · exact Or.inl (h0 ▸ h)
  · exact Or.inr h0

/-- Claim C2 witness: a concrete successful run, with the value `"billing"`
recorded for `A`. -/
theorem c2_amended_values_witness :
    "common" ∈ domainNames catBC ∧
    ("billing" ∈ domainNames catBC ∨ "billing" = "error") :=
  ⟨by decide, c2_amended_values catBC wOk [("A", "a")] (by decide) "billing" (by decide)⟩

/-- Claim C3: for distinct identifiers, the final assignment map's key list is
exactly the class mapping's key list — every identifier is recorded exactly
once. -/
theorem c3_keys_complete (cat : List (String × String)) (w : World)
    (items : List (String × String)) (h : (items.map Prod.fst).Nodup) :
    (fourth_part cat w items).class_domain_mapping.map Prod.fst
      = items.map Prod.fst := by
  rw [fourth_part_eq_cFold]
  have := cFold_keys cat w items cInit (by simpa [cInit] using h)
  simpa [cInit] using this

/-- Claim C3 witness: concrete run over one identifier. -/
theorem c3_keys_complete_witness :
    ([(("Foo" : String), ("Foo.txt" : String))].map Prod.fst).Nodup ∧
    (fourth_part catBC wOk [("Foo", "Foo.txt")]).class_domain_mapping.map Prod.fst
      = [(("Foo" : String), ("Foo.txt" : String))].map Prod.fst :=
  ⟨by decide, c3_keys_complete catBC wOk [("Foo", "Foo.txt")] (by decide)⟩


set_option maxRecDepth 4000 in
/-- Claim C4, counterexample: with the monotone token counter `String.length`
and budget 5, a single 5-token file is not skipped, yet the one emitted
batch's fully templated prompt has far more than 5 tokens — the builder only
bounds the sum of raw file token counts, not the templated prompt. -/
theorem c4_counterexample :
    MonotoneTok String.length ∧
    (first_part String.length fsSmall 5 [("A", "a.txt")]).batches = [[("A", "a.txt")]] ∧
    ((first_part String.length fsSmall 5 [("A", "a.txt")]).chunks.all
      (fun c => 5 < c.length)) = true := by
  refine ⟨?_, by decide, by decide⟩
  intro s t
  constructor <;> rw [String.length_append] <;> omega

/-- Claim C4 as amended: every emitted batch's accumulated raw file-content
token total (the quantity the builder actually compares against the budget)
is at most `B`. -/
theorem c4_amended_batch_budget (tok : String → Nat) (fs : String → Option String)
    (B : Nat) (items : List (String × String)) (b : List (String × String))
    (hb : b ∈ (first_part tok fs B items).batches) :
    sumTokens tok fs b ≤ B :=
  first_part_batches_le tok fs B items b hb

/-- Claim C4 witness: the concrete batch of the 5-token file fits the budget 5. -/
theorem c4_amended_batch_budget_witness :
    [(("A" : String), ("a.txt" : String))]
        ∈ (first_part String.length fsSmall 5 [("A", "a.txt")]).batches ∧
    sumTokens String.length fsSmall [("A", "a.txt")] ≤ 5 :=
  ⟨by decide,
    c4_amended_batch_budget String.length fsSmall 5 [("A", "a.txt")] [("A", "a.txt")]
      (by decide)⟩

/-- Claim C5, counterexample: a readable, non-oversized file whose content is
empty (0 tokens) is appended to the buffer but the final flush never runs
(`token_count > 0` fails), so the file lands in no emitted batch even though
it was neither skipped nor unreadable. -/
theorem c5_counterexample :
    (first_part String.length fsEmpty 180000 [("E", "e.txt")]).batches = [] ∧
    (first_part String.length fsEmpty 180000 [("E", "e.txt")]).skipped = [] ∧
    (first_part String.length fsEmpty 180000 [("E", "e.txt")]).errors = [] ∧
    includedEntries String.length fsEmpty 180000 [("E", "e.txt")] = [("E", "e.txt")] := by
  decide

/-- Claim C5 as amended: the batches' entries followed by the trailing entries
dropped when the final buffer's token count is zero are exactly the input
entries minus skipped oversized files and minus read failures, in order; the
running token count is the buffer's token total (so only a zero-token trailing
buffer is ever dropped), and with distinct identifiers no entry occurs in two
batches. -/
theorem c5_amended_partition (tok : String → Nat) (fs : String → Option String)
    (B : Nat) (items : List (String × String))
    (h : (items.map Prod.fst).Nodup) :
    (first_part tok fs B items).batches.flatten
        ++ (if (fpFold tok fs B items).token_count = 0
            then (fpFold tok fs B items).cur else [])
      = includedEntries tok fs B items ∧
    (fpFold tok fs B items).token_count
      = sumTokens tok fs (fpFold tok fs B items).cur ∧
    ((first_part tok fs B items).batches.flatten.map Prod.fst).Nodup := by
  refine ⟨first_part_partition tok fs B items, ?_, ?_⟩
  · exact (fpFold_from_inv tok fs B items fpInit (fpInit_inv tok fs B)).1
  · have hsub : (first_part tok fs B items).batches.flatten.Sublist
        (includedEntries tok fs B items) := by
      rw [← first_part_partition tok fs B items]
      exact List.sublist_append_left _ _
    have hsub2 : (includedEntries tok fs B items).Sublist items :=
      List.filter_sublist items
    exact List.Nodup.sublist ((hsub.trans hsub2).map Prod.fst) h

/-- Claim C5 witness: concrete run over one 5-token file. -/
theorem c5_amended_partition_witness :
    ([(("A" : String), ("a.txt" : String))].map Prod.fst).Nodup ∧
    ((first_part String.length fsSmall 180000 [("A", "a.txt")]).batches.flatten
        ++ (if (fpFold String.length fsSmall 180000 [("A", "a.txt")]).token_count = 0
            then (fpFold String.length fsSmall 180000 [("A", "a.txt")]).cur else [])
      = includedEntries String.length fsSmall 180000 [("A", "a.txt")] ∧
    (fpFold String.length fsSmall 180000 [("A", "a.txt")]).token_count
      = sumTokens String.length fsSmall (fpFold String.length fsSmall 180000 [("A", "a.txt")]).cur ∧
    ((first_part String.length fsSmall 180000 [("A", "a.txt")]).batches.flatten.map Prod.fst).Nodup) :=
  ⟨by decide, c5_amended_partition String.length fsSmall 180000 [("A", "a.txt")] (by decide)⟩

/-- Claim C6, counterexample: an identifier whose file is missing is recorded
under the failure marker `"error"`, not under the `common` default domain. -/
theorem c6_counterexample :
    (fourth_part catBC wMissing [("A", "missing.txt")]).class_domain_mapping
      = [("A", "error")] ∧
    ("error" : String) ≠ "common" := by decide

/-- Claim C6 as amended: an identifier whose file is missing or unreadable is
recorded under the failure marker `"error"`, and the run still records every
other identifier (the key list stays complete). -/
theorem c6_amended_error_marker (cat : List (String × String)) (w : World)
    (items : List (String × String)) (k p : String)
    (hmem : (k, p) ∈ items) (hread : w.readFile p = none)
    (h : (items.map Prod.fst).Nodup) :
    lookupA (fourth_part cat w items).class_domain_mapping k = some "error" ∧
    (fourth_part cat w items).class_domain_mapping.map Prod.fst
      = items.map Prod.fst := by
  refine ⟨?_, ?_⟩
  · obtain ⟨s, t, rfl⟩ := List.append_of_mem hmem
    have hfold : fourth_part cat w (s ++ (k, p) :: t)
        = cFold cat w (runItem cat w (cFold cat w cInit s) (k, p)) t := by
      simp [fourth_part, cFold, List.foldl_append]
    rw [hfold]
    have hk_nott : k ∉ t.map Prod.fst := by
      rw [List.map_append, List.nodup_append] at h
      have h2 := h.2.1
      rw [List.map_cons, List.nodup_cons] at h2
      exact h2.1
    rw [cFold_lookup_of_not_mem cat w t _ k hk_nott, runItem_char]
    have hrv : recordedValue cat w (k, p) = "error" := by
      simp [recordedValue, hread]
    simp only [hrv]
    exact lookupA_dinsert_self _ _ _
  · rw [fourth_part_eq_cFold]
    have := cFold_keys cat w items cInit (by simpa [cInit] using h)
    simpa [cInit] using this

/-- Claim C6 witness: concrete run over a single missing file. -/
theorem c6_amended_error_marker_witness :
    ((("Foo" : String), ("Foo.txt" : String)) ∈ [(("Foo" : String), ("Foo.txt" : String))]) ∧
    wMissing.readFile "Foo.txt" = none ∧
    ([(("Foo" : String), ("Foo.txt" : String))].map Prod.fst).Nodup ∧
    (lookupA (fourth_part catBC wMissing [("Foo", "Foo.txt")]).class_domain_mapping "Foo"
        = some "error" ∧
      (fourth_part catBC wMissing [("Foo", "Foo.txt")]).class_domain_mapping.map Prod.fst
        = [(("Foo" : String), ("Foo.txt" : String))].map Prod.fst) :=
  ⟨by decide, rfl, by decide,
    c6_amended_error_marker catBC wMissing [("Foo", "Foo.txt")] "Foo" "Foo.txt"
      (by decide) rfl (by decide)⟩


/-- Claim C7, counterexample: a response in the expected structure whose
domain name `Order_Management` needs normalization is persisted verbatim by
`third_part`; no normalization (`order-management`) is applied on parse
success. -/
theorem c7_counterexample :
    third_part (fun _ => rawResponse) "sum1" = rawResponse ∧
    specNormalizeDomainName "Order_Management" = "order-management" ∧
    rawResponse
      ≠ mkDomainsJson [(specNormalizeDomainName "Order_Management", "Handles orders")] :=
  ⟨rfl, by decide, by decide⟩

/-- Claim C7 as amended: `third_part` performs no parsing and no
normalization — whatever the model returns for the assembled prompt is
persisted verbatim. -/
theorem c7_amended_verbatim (api : String → String) (transcript : String) :
    third_part api transcript = api (gbdPrompt (transcriptSummaries transcript)) := rfl

/-- Claim C8, counterexample: the run over `itemsTen` in `wTen` has one read
failure followed by ten successes; the only checkpoint is written at the
ninth success (when the combined processed counter reaches 10) and no persist
follows the tenth successfully processed identifier `C11`. -/
theorem c8_counterexample :
    (fourth_part catBC wTen itemsTen).checkpoints
      = [[("C01", "error"), ("C02", "billing"), ("C03", "billing"), ("C04", "billing"),
          ("C05", "billing"), ("C06", "billing"), ("C07", "billing"), ("C08", "billing"),
          ("C09", "billing"), ("C10", "billing")]] ∧
    ((fourth_part catBC wTen itemsTen).class_domain_mapping.filter
      (fun q => !(q.2 == "error"))).length = 10 ∧
    ([[("C01", "error"), ("C02", "billing"), ("C03", "billing"), ("C04", "billing"),
       ("C05", "billing"), ("C06", "billing"), ("C07", "billing"), ("C08", "billing"),
       ("C09", "billing"), ("C10", "billing")]].map
      (fun m => (m.filter (fun q => !((q : String × String).2 == "error"))).length))
      = [9] := by
  refine ⟨by decide, by decide, by decide⟩

/-- Claim C8 as amended: a checkpoint (full persist of the current map) is
written exactly when a successful classification brings the combined
processed counter — successes and failures alike — to a multiple of 10;
failures bump the counter without persisting; and the final save is always a
full persist of the final map. -/
theorem c8_amended_checkpoints (cat : List (String × String)) (w : World)
    (st : CState) (item : String × String) (items : List (String × String)) :
    (runItem cat w st item).checkpoints
      = (if stepSuccess cat w item = true ∧ (st.processed + 1) % 10 = 0 then
           st.checkpoints ++ [(runItem cat w st item).class_domain_mapping]
         else st.checkpoints) ∧
    (runItem cat w st item).processed = st.processed + 1 ∧
    (fourth_part_persists cat w items).getLast?
      = some (fourth_part cat w items).class_domain_mapping := by
  refine ⟨?_, by rw [runItem_char], ?_⟩
  · rw [runItem_char]
  · simp [fourth_part_persists]

/-- Claim C10: the Summarization Runner's transcript does not depend on the
file's pre-run content (the file is truncated first), and a completed run
leaves exactly the summaries of that run, in batch order, each
newline-terminated. -/
theorem c10_transcript_content (prior prior2 : String)
    (api : String → Except Unit String) (model : String → String)
    (chunks : List String) :
    second_part prior api chunks = second_part prior2 api chunks ∧
    second_part prior (fun c => Except.ok (model c)) chunks
      = (String.join (chunks.map (fun c => model c ++ "\n")), true) := by
  refine ⟨rfl, ?_⟩
  rw [second_part, secondPartGo_ok]
  refine Prod.ext ?_ rfl
  apply String.ext
  simp [String.data_append]

end CreateDomains
